import Mathlib

/-!
Verification of the go-gcm push-notification client (src/client.go).

The Go file `client.go` defines the client configuration (`Client`,
`CreateClient`), the batch loop (`SendMessage`) and the per-batch HTTP
exchange and response classification (`send`). The repository files that
declare the `Message`, `Response` and `Result` structures, the error-kind
constants and the batching method `encode` are not present; those are
modelled from the specification and marked as such below.

HTTP transport, JSON serialization and parsing are external collaborators
(spec sections 1 and 6): the outcome of one HTTP exchange is modelled by the
`Exchange` type, and `send` takes the exchange outcome as an argument.
-/

namespace GCM

/-- `Gateway` defines the gcm end point (client.go line 16). -/
def Gateway : String := "https://android.googleapis.com/gcm/send"

/-- `MaxBackOffDelay` (client.go line 18); defined in the source but never used. -/
def MaxBackOffDelay : Nat := 1024000

/-- `BackOffInitialDelay` (client.go line 20); defined in the source but never used. -/
def BackOffInitialDelay : Nat := 1000

/-- Modelled from the spec: the error-kind constants `Timeout`,
`AuthenticationError`, `InternalServerError`, `InvalidJSON` are declared in a
repository file missing from src/. The spec (section 7) names the four kinds
but not their string values, so representative distinct literals are used;
no theorem below depends on the literal text, only on which constant each
branch of `send` picks. -/
def Timeout : String := "Timeout"

/-- Modelled from the spec: see `Timeout`. -/
def AuthenticationError : String := "AuthenticationError"

/-- Modelled from the spec: see `Timeout`. -/
def InternalServerError : String := "InternalServerError"

/-- Modelled from the spec: see `Timeout`. -/
def InvalidJSON : String := "InvalidJSON"

/-- Modelled from the spec: the provider batch limit `MaxRegistrationIDs` is
declared in a repository file missing from src/; the spec (sections 3 and 8)
gives the historical cap 1000. -/
def MaxRegistrationIDs : Nat := 1000

/-- Modelled from the spec: the per-recipient `Result` structure (spec
section 3) is declared in a repository file missing from src/. Fields: a
delivered-message identifier, the registration identifier the entry refers
to, and an error classification; Go zero-initializes string fields to "". -/
structure Result where
  MessageID : String := ""
  RegistrationID : String := ""
  Error : String := ""
deriving DecidableEq, Repr

/-- Modelled from the spec: the `Response` structure (spec sections 3 and 6)
is declared in a repository file missing from src/. Go `int` fields are
modelled as `Int` (`MulticastID` carries the -1 sentinel). -/
structure Response where
  MulticastID : Int
  Success : Int
  Failure : Int
  CanonicalIDs : Int
  Results : List Result
deriving DecidableEq, Repr

/-- Modelled from the spec: the `Message` structure (spec section 3) is
declared in a repository file missing from src/: an ordered list of
recipient registration identifiers plus payload data and delivery options,
all of which the encoder copies unchanged into every batch. -/
structure Message where
  RegistrationIDs : List String
  Data : List (String × String) := []
  CollapseKey : String := ""
  Priority : String := ""
  TimeToLive : Int := 0
  DelayWhileIdle : Bool := false
  DryRun : Bool := false
deriving DecidableEq, Repr

/-- The injectable HTTP transport handle (`*http.Client` in Go), opaque to
the core logic: either the standard default client or an injected one. -/
inductive HTTPTransport where
  | defaultClient
  | injected (label : String)
deriving DecidableEq, Repr

/-- `Client` describes a gcm client (client.go lines 24-28). -/
structure Client where
  APIKey : String
  Gateway : String
  HTTPClient : HTTPTransport
deriving DecidableEq, Repr

/-- `CreateClient` returns the default gcm client (client.go lines 31-37):
both strings are stored verbatim and the transport is the default client. -/
def CreateClient (apiKey : String) (gateway : String) : Client :=
  { APIKey := apiKey, Gateway := gateway, HTTPClient := .defaultClient }

/-- Outcome of reading and parsing the body of a 200-status HTTP response
(client.go lines 110-115): `ioutil.ReadAll` may fail (`unreadable`),
`json.Unmarshal` may fail (`unparsable`), or the body deserializes into a
`Response` (`parsed`). JSON parsing itself is an external collaborator. -/
inductive BodyOutcome where
  | unreadable
  | unparsable
  | parsed (response : Response)
deriving DecidableEq, Repr

/-- Outcome of one HTTP exchange (client.go line 67): either
`m.HTTPClient.Do` yields no response object (`transportFailure`), or it
yields a response with a status code and a body. The request construction
(lines 58-64: JSON marshal, POST to `c.Gateway` with the authorization
header) only feeds the transport, so its effect is absorbed into which
`Exchange` the transport produces. -/
inductive Exchange where
  | transportFailure
  | httpResponse (status : Nat) (body : BodyOutcome)
deriving DecidableEq, Repr

/-- The re-stamping loop of the 200-status valid-JSON path (client.go lines
119-121): `for idx, registrationID := range message.RegistrationIDs {
response.Results[idx].RegistrationID = registrationID }`. Indexing
`Results[idx]` has no bounds check, so the loop panics (modelled as `none`)
as soon as `idx` reaches the length of the parsed results list. -/
def stampRegistrationIDs : List Result → List String → Option (List Result)
  | results, [] => some results
  | [], _ :: _ => none
  | result :: results, registrationID :: ids =>
      match stampRegistrationIDs results ids with
      | none => none
      | some rest => some ({ result with RegistrationID := registrationID } :: rest)

/-- `send` (client.go lines 57-140) classifies the outcome of one HTTP
exchange for one wire message. `none` models a Go panic (only possible in
the re-stamping loop); every other path returns a `Response`.
Branches, in source order: transport failure (lines 68-82), non-200 status
(lines 86-108), 200 with readable body that parses (lines 113-123), and the
fallthrough for unreadable or unparsable bodies (lines 127-139). -/
def Client.send (_c : Client) (message : Message) (exchange : Exchange) :
    Option Response :=
  match exchange with
  | .transportFailure =>
      some { MulticastID := -1
             Success := 0
             Failure := (message.RegistrationIDs.length : Int)
             CanonicalIDs := 0
             Results := message.RegistrationIDs.map fun registrationID =>
               { Error := Timeout, RegistrationID := registrationID } }
  | .httpResponse status body =>
      if status ≠ 200 then
        let errorMessage :=
          if status = 401 then AuthenticationError else InternalServerError
        some { MulticastID := -1
               Success := 0
               Failure := (message.RegistrationIDs.length : Int)
               CanonicalIDs := 0
               Results := message.RegistrationIDs.map fun registrationID =>
                 { Error := errorMessage, RegistrationID := registrationID } }
      else
        match body with
        | .parsed response =>
            (stampRegistrationIDs response.Results message.RegistrationIDs).map
              fun results => { response with Results := results }
        | _ =>
            some { MulticastID := -1
                   Success := 0
                   Failure := (message.RegistrationIDs.length : Int)
                   CanonicalIDs := 0
                   Results := message.RegistrationIDs.map fun registrationID =>
                     { Error := InvalidJSON, RegistrationID := registrationID } }

/-- Modelled from the spec: `message.encode()` (called at client.go line 47)
is declared in a repository file missing from src/. Spec section 4.1:
partition the registration-identifier list into consecutive chunks of at
most `MaxRegistrationIDs`, in input order, the last chunk possibly smaller;
an empty list produces zero batches. -/
def chunkRegistrationIDs : List String → List (List String)
  | [] => []
  | registrationID :: rest =>
      (registrationID :: rest).take MaxRegistrationIDs ::
        chunkRegistrationIDs ((registrationID :: rest).drop MaxRegistrationIDs)
  termination_by l => l.length
  decreasing_by
    simp [MaxRegistrationIDs]
    omega

/-- Modelled from the spec: each chunk becomes one wire message carrying the
same payload and options as the original (spec section 4.1). -/
def Message.encode (message : Message) : List Message :=
  (chunkRegistrationIDs message.RegistrationIDs).map
    fun ids => { message with RegistrationIDs := ids }

/-- `SendMessage` (client.go lines 40-54): a nil message yields a nil result
list and nothing else happens; otherwise the message is encoded into wire
messages and `send` runs once per wire message, in order, collecting one
`Response` each. The transport oracle gives the exchange outcome for each
wire message; `none` models a Go panic inside some `send`. -/
def Client.SendMessage (c : Client) (transport : Message → Exchange)
    (message : Option Message) : Option (List Response) :=
  match message with
  | none => some []
  | some msg =>
      msg.encode.mapM fun wireMessage =>
        c.send wireMessage (transport wireMessage)

/-- The Results length `send` actually guarantees on each path: on a
200-status exchange whose body parsed, the stamped response keeps the parsed
results list (so its length); every synthetic path builds one Result per
registration identifier. -/
def expectedResultsLength (message : Message) (exchange : Exchange) : Nat :=
  match exchange with
  | .httpResponse status (.parsed response) =>
      if status = 200 then response.Results.length
      else message.RegistrationIDs.length
  | _ => message.RegistrationIDs.length

/-- A concrete client for witnesses. -/
def exampleClient : Client := CreateClient "APIKey" Gateway

/-- A concrete one-recipient message for witnesses. -/
def exampleMessage : Message := { RegistrationIDs := ["R1"] }

/-- The parsed 200-status body of the spec section 8 example. -/
def exampleBody : Response :=
  { MulticastID := 123, Success := 1, Failure := 0, CanonicalIDs := 0,
    Results := [{ MessageID := "m1" }] }

/-- `exampleBody` with the registration identifier stamped in. -/
def exampleStamped : Response :=
  { MulticastID := 123, Success := 1, Failure := 0, CanonicalIDs := 0,
    Results := [{ MessageID := "m1", RegistrationID := "R1" }] }

/-- A parsed 200-status body carrying more results than the wire message has
registration identifiers. -/
def exampleLongBody : Response :=
  { MulticastID := 7, Success := 2, Failure := 0, CanonicalIDs := 0,
    Results := [{ MessageID := "m1" }, { MessageID := "m2" }] }

/-- The synthetic transport-failure response for `exampleMessage`. -/
def exampleTimeoutResponse : Response :=
  { MulticastID := -1, Success := 0, Failure := 1, CanonicalIDs := 0,
    Results := [{ RegistrationID := "R1", Error := Timeout }] }

/-- The synthetic 401 response for `exampleMessage`. -/
def exampleAuthResponse : Response :=
  { MulticastID := -1, Success := 0, Failure := 1, CanonicalIDs := 0,
    Results := [{ RegistrationID := "R1", Error := AuthenticationError }] }

theorem stampRegistrationIDs_isSome_iff (results : List Result)
    (ids : List String) :
    (stampRegistrationIDs results ids).isSome ↔ ids.length ≤ results.length := by
  induction ids generalizing results with
  | nil => simp [stampRegistrationIDs]
  | cons registrationID ids ih =>
      cases results with
      | nil => simp [stampRegistrationIDs]
      | cons result results =>
          have h := ih results
          simp only [stampRegistrationIDs, List.length_cons]
          cases hs : stampRegistrationIDs results ids <;>
            simp [hs] at h ⊢ <;> omega

theorem stampRegistrationIDs_length (results : List Result) (ids : List String)
    (out : List Result) (h : stampRegistrationIDs results ids = some out) :
    out.length = results.length := by
  induction ids generalizing results out with
  | nil =>
      simp only [stampRegistrationIDs, Option.some_inj] at h
      subst h; rfl
  | cons registrationID ids ih =>
      cases results with
      | nil => simp [stampRegistrationIDs] at h
      | cons result results =>
          simp only [stampRegistrationIDs] at h
          cases hs : stampRegistrationIDs results ids with
          | none => rw [hs] at h; simp at h
          | some rest =>
              rw [hs] at h
              simp only [Option.some_inj] at h
              subst h
              simp [ih results rest hs]

theorem stampRegistrationIDs_get_lt (results : List Result) (ids : List String)
    (out : List Result) (h : stampRegistrationIDs results ids = some out)
    (i : Nat) (hi : i < ids.length) (hp : i < results.length)
    (ho : i < out.length) :
    out[i].RegistrationID = ids[i] ∧
    out[i].MessageID = results[i].MessageID ∧
    out[i].Error = results[i].Error := by
  induction ids generalizing results out i with
  | nil => simp at hi
  | cons registrationID ids ih =>
      cases results with
      | nil => simp [stampRegistrationIDs] at h
      | cons result results =>
          simp only [stampRegistrationIDs] at h
          cases hs : stampRegistrationIDs results ids with
          | none => rw [hs] at h; simp at h
          | some rest =>
              rw [hs] at h
              simp only [Option.some_inj] at h
              subst h
              cases i with
              | zero => exact ⟨rfl, rfl, rfl⟩
              | succ n =>
                  simp only [List.getElem_cons_succ]
                  exact ih results rest hs n (by simpa using hi)
                    (by simpa using hp) (by simpa using ho)

theorem stampRegistrationIDs_get_ge (results : List Result) (ids : List String)
    (out : List Result) (h : stampRegistrationIDs results ids = some out)
    (i : Nat) (hge : ids.length ≤ i) (hp : i < results.length)
    (ho : i < out.length) :
    out[i] = results[i] := by
  induction ids generalizing results out i with
  | nil =>
      simp only [stampRegistrationIDs, Option.some_inj] at h
      subst h; rfl
  | cons registrationID ids ih =>
      cases results with
      | nil => simp [stampRegistrationIDs] at h
      | cons result results =>
          simp only [stampRegistrationIDs] at h
          cases hs : stampRegistrationIDs results ids with
          | none => rw [hs] at h; simp at h
          | some rest =>
              rw [hs] at h
              simp only [Option.some_inj] at h
              subst h
              cases i with
              | zero => simp at hge
              | succ n =>
                  simp only [List.getElem_cons_succ]
                  exact ih results rest hs n (by simpa using hge)
                    (by simpa using hp) (by simpa using ho)

theorem send_parsed_eq (c : Client) (message : Message) (response : Response) :
    c.send message (.httpResponse 200 (.parsed response)) =
      (stampRegistrationIDs response.Results message.RegistrationIDs).map
        fun results => { response with Results := results } := by
  simp [Client.send]

/-- C3: for every wire message, when the transport yields no response
object, `send` returns a Response with MulticastID = -1, Success = 0,
Failure = the number of registration identifiers, CanonicalIDs = 0, and for
every index i a Result whose Error is `Timeout` and whose RegistrationID is
the i-th registration identifier. -/
theorem send_transportFailure_synthetic (c : Client) (message : Message) :
    ∃ r, c.send message .transportFailure = some r ∧
      r.MulticastID = -1 ∧ r.Success = 0 ∧
      r.Failure = (message.RegistrationIDs.length : Int) ∧
      r.CanonicalIDs = 0 ∧
      r.Results.length = message.RegistrationIDs.length ∧
      ∀ i, (hi : i < message.RegistrationIDs.length) →
        (hr : i < r.Results.length) →
        r.Results[i].Error = Timeout ∧
        r.Results[i].RegistrationID = message.RegistrationIDs[i] := by
  refine ⟨_, rfl, rfl, rfl, rfl, rfl, by simp, ?_⟩
  intro i hi hr
  simp

/-- C4: for every wire message and every HTTP response whose status is not
200, `send` returns the synthetic failure Response in which every Result
carries `AuthenticationError` when the status is 401 and
`InternalServerError` otherwise, each Result stamped with its registration
identifier. -/
theorem send_non200_synthetic (c : Client) (message : Message) (status : Nat)
    (body : BodyOutcome) (r : Response) (hstatus : status ≠ 200)
    (h : c.send message (.httpResponse status body) = some r) :
    r.MulticastID = -1 ∧ r.Success = 0 ∧
    r.Failure = (message.RegistrationIDs.length : Int) ∧
    r.CanonicalIDs = 0 ∧
    r.Results.length = message.RegistrationIDs.length ∧
    ∀ i, (hi : i < message.RegistrationIDs.length) →
      (hr : i < r.Results.length) →
      r.Results[i].Error =
        (if status = 401 then AuthenticationError else InternalServerError) ∧
      r.Results[i].RegistrationID = message.RegistrationIDs[i] := by
  simp only [Client.send, if_pos hstatus, Option.some_inj] at h
  subst h
  refine ⟨rfl, rfl, rfl, rfl, by simp, ?_⟩
  intro i hi hr
  simp

/-- C4 witness: a 401 exchange on the one-recipient example message. -/
theorem send_non200_synthetic_witness :
    exampleClient.send exampleMessage (.httpResponse 401 .unparsable)
      = some exampleAuthResponse ∧
    exampleAuthResponse.MulticastID = -1 :=
  ⟨by decide,
   (send_non200_synthetic exampleClient exampleMessage 401 .unparsable
      exampleAuthResponse (by decide) (by decide)).1⟩

/-- C5: for every wire message and every 200-status exchange whose body
cannot be read or does not parse, `send` returns a Response with
MulticastID = -1 in which every Result carries `InvalidJSON` paired with its
registration identifier. -/
theorem send_invalidJSON_synthetic (c : Client) (message : Message) :
    (∃ r, c.send message (.httpResponse 200 .unreadable) = some r ∧
      r.MulticastID = -1 ∧ r.Success = 0 ∧
      r.Failure = (message.RegistrationIDs.length : Int) ∧
      r.CanonicalIDs = 0 ∧
      r.Results.length = message.RegistrationIDs.length ∧
      ∀ i, (hi : i < message.RegistrationIDs.length) →
        (hr : i < r.Results.length) →
        r.Results[i].Error = InvalidJSON ∧
        r.Results[i].RegistrationID = message.RegistrationIDs[i]) ∧
    (∃ r, c.send message (.httpResponse 200 .unparsable) = some r ∧
      r.MulticastID = -1 ∧ r.Success = 0 ∧
      r.Failure = (message.RegistrationIDs.length : Int) ∧
      r.CanonicalIDs = 0 ∧
      r.Results.length = message.RegistrationIDs.length ∧
      ∀ i, (hi : i < message.RegistrationIDs.length) →
        (hr : i < r.Results.length) →
        r.Results[i].Error = InvalidJSON ∧
        r.Results[i].RegistrationID = message.RegistrationIDs[i]) := by
  constructor <;>
    · refine ⟨_, rfl, rfl, rfl, rfl, rfl, by simp, ?_⟩
      intro i hi hr
      simp

/-- C10: on the 200-status valid-JSON path the re-stamping loop indexes the
parsed results list at every index of the registration-identifier list with
no bounds check: `send` is panic-free exactly when the parsed body has at
least as many results as the wire message has registration identifiers. -/
theorem send_parsed_isSome_iff (c : Client) (message : Message)
    (response : Response) :
    (c.send message (.httpResponse 200 (.parsed response))).isSome ↔
      message.RegistrationIDs.length ≤ response.Results.length := by
  rw [send_parsed_eq]
  simp [stampRegistrationIDs_isSome_iff]

/-- C2: for every wire message and every 200-status exchange whose body
parses, `send` returns the deserialized Response with each Result
re-stamped positionally: Results[i].RegistrationID = RegistrationIDs[i] for
every index of the registration-identifier list, all other fields kept from
the parsed body. -/
theorem send_parsed_stamps (c : Client) (message : Message)
    (response : Response) (r : Response)
    (h : c.send message (.httpResponse 200 (.parsed response)) = some r) :
    r.MulticastID = response.MulticastID ∧ r.Success = response.Success ∧
    r.Failure = response.Failure ∧ r.CanonicalIDs = response.CanonicalIDs ∧
    r.Results.length = response.Results.length ∧
    (∀ i, (hi : i < message.RegistrationIDs.length) →
      (hp : i < response.Results.length) → (hr : i < r.Results.length) →
      r.Results[i].RegistrationID = message.RegistrationIDs[i] ∧
      r.Results[i].MessageID = response.Results[i].MessageID ∧
      r.Results[i].Error = response.Results[i].Error) ∧
    (∀ i, message.RegistrationIDs.length ≤ i →
      (hp : i < response.Results.length) → (hr : i < r.Results.length) →
      r.Results[i] = response.Results[i]) := by
  rw [send_parsed_eq] at h
  cases hs : stampRegistrationIDs response.Results message.RegistrationIDs with
  | none => rw [hs] at h; simp at h
  | some results =>
      rw [hs] at h
      simp only [Option.map_some', Option.some_inj] at h
      subst h
      refine ⟨rfl, rfl, rfl, rfl,
        stampRegistrationIDs_length _ _ _ hs, ?_, ?_⟩
      · intro i hi hp hr
        have := stampRegistrationIDs_get_lt response.Results
          message.RegistrationIDs results hs i hi hp (by simpa using hr)
        simpa using this
      · intro i hge hp hr
        have := stampRegistrationIDs_get_ge response.Results
          message.RegistrationIDs results hs i hge hp (by simpa using hr)
        simpa using this

/-- C2 witness: the spec section 8 example, body
`{"multicast_id":123,"success":1,"failure":0,"canonical_ids":0,
"results":[{"message_id":"m1"}]}` for registration id `R1`. -/
theorem send_parsed_stamps_witness :
    exampleClient.send exampleMessage (.httpResponse 200 (.parsed exampleBody))
      = some exampleStamped ∧
    exampleStamped.MulticastID = exampleBody.MulticastID :=
  ⟨by decide,
   (send_parsed_stamps exampleClient exampleMessage exampleBody
      exampleStamped (by decide)).1⟩

/-- C1 counterexample: a 200-status exchange whose valid-JSON body carries
two results for a one-recipient wire message yields a returned Response with
two Results — the claimed invariant fails on the success path. -/
theorem send_results_length_cex :
    (exampleClient.send exampleMessage
        (.httpResponse 200 (.parsed exampleLongBody))).map
      (fun r => r.Results.length) = some 2 ∧
    exampleMessage.RegistrationIDs.length = 1 := by
  decide

/-- C1 amended: whenever `send` returns a Response, its Results length is
the number of registration identifiers on the transport-failure, non-200
and invalid-JSON paths, but on the 200-status parsed-body path it is the
parsed body's results length (equal to the registration-identifier count
only when the body supplies exactly that many results). -/
theorem send_results_length (c : Client) (message : Message)
    (exchange : Exchange) (r : Response)
    (h : c.send message exchange = some r) :
    r.Results.length = expectedResultsLength message exchange := by
  cases exchange with
  | transportFailure =>
      simp only [Client.send, Option.some_inj] at h
      subst h
      simp [expectedResultsLength]
  | httpResponse status body =>
      by_cases hstatus : status = 200
      · subst hstatus
        cases body with
        | unreadable =>
            simp only [Client.send, ne_eq, not_true_eq_false, if_false,
              Option.some_inj] at h
            subst h
            simp [expectedResultsLength]
        | unparsable =>
            simp only [Client.send, ne_eq, not_true_eq_false, if_false,
              Option.some_inj] at h
            subst h
            simp [expectedResultsLength]
        | parsed response =>
            rw [send_parsed_eq] at h
            cases hs : stampRegistrationIDs response.Results
                message.RegistrationIDs with
            | none => rw [hs] at h; simp at h
            | some results =>
                rw [hs] at h
                simp only [Option.map_some', Option.some_inj] at h
                subst h
                simp [expectedResultsLength,
                  stampRegistrationIDs_length _ _ _ hs]
      · simp only [Client.send, if_pos hstatus, Option.some_inj] at h
        subst h
        cases body <;> simp [expectedResultsLength, hstatus]

/-- C1 witness: the transport-failure path on the one-recipient example. -/
theorem send_results_length_witness :
    exampleClient.send exampleMessage .transportFailure
      = some exampleTimeoutResponse ∧
    exampleTimeoutResponse.Results.length
      = expectedResultsLength exampleMessage .transportFailure :=
  ⟨by decide,
   send_results_length exampleClient exampleMessage .transportFailure
     exampleTimeoutResponse (by decide)⟩

/-- C6: for a nil input message, `SendMessage` returns the empty result
collection, for every client and every transport oracle — nothing is
encoded and no exchange outcome is ever consulted. -/
theorem sendMessage_nil (c : Client) (transport : Message → Exchange) :
    c.SendMessage transport none = some [] := rfl

theorem mapM_option_of_isSome {α β : Type} (f : α → Option β) (l : List α)
    (h : ∀ x ∈ l, (f x).isSome) :
    ∃ ys, l.mapM f = some ys ∧ ys.length = l.length ∧
      ∀ i, (hi : i < l.length) → (hy : i < ys.length) →
        f l[i] = some ys[i] := by
  induction l with
  | nil =>
      refine ⟨[], rfl, rfl, ?_⟩
      intro i hi hy
      simp at hi
  | cons x xs ih =>
      obtain ⟨y, hy⟩ := Option.isSome_iff_exists.mp (h x (by simp))
      obtain ⟨ys, hys, hlen, hget⟩ := ih fun z hz => h z (by simp [hz])
      refine ⟨y :: ys, ?_, by simp [hlen], ?_⟩
      · rw [List.mapM_cons, hy, hys]; rfl
      · intro i hi hyi
        cases i with
        | zero => simpa using hy
        | succ n =>
            simp only [List.getElem_cons_succ]
            exact hget n (by simpa using hi) (by simpa using hyi)

/-- C7: for every non-nil message, as long as no individual `send` panics,
`SendMessage` returns exactly one Response per wire message produced by the
encoder, in the same order — in particular a failure Response for one wire
message never prevents subsequent wire messages from being attempted, since
every exchange outcome (including all the failure classifications) yields
its own Response in the list. -/
theorem sendMessage_per_wire (c : Client) (transport : Message → Exchange)
    (message : Message)
    (h : ∀ wm ∈ message.encode, (c.send wm (transport wm)).isSome) :
    ∃ rs, c.SendMessage transport (some message) = some rs ∧
      rs.length = message.encode.length ∧
      ∀ i, (hi : i < message.encode.length) → (hr : i < rs.length) →
        c.send message.encode[i] (transport message.encode[i])
          = some rs[i] := by
  obtain ⟨ys, hmap, hlen, hget⟩ :=
    mapM_option_of_isSome (fun wm => c.send wm (transport wm))
      message.encode h
  exact ⟨ys, hmap, hlen, hget⟩

/-- C7 witness: the one-recipient example message sent through a transport
that always fails: every wire message still produces its Response. -/
theorem sendMessage_per_wire_witness :
    (∀ wm ∈ exampleMessage.encode,
      (exampleClient.send wm Exchange.transportFailure).isSome) ∧
    (∃ rs, exampleClient.SendMessage (fun _ => Exchange.transportFailure)
        (some exampleMessage) = some rs ∧
      rs.length = exampleMessage.encode.length ∧
      ∀ i, (hi : i < exampleMessage.encode.length) → (hr : i < rs.length) →
        exampleClient.send exampleMessage.encode[i] Exchange.transportFailure
          = some rs[i]) := by
  have hh : ∀ wm ∈ exampleMessage.encode,
      (exampleClient.send wm ((fun _ => Exchange.transportFailure) wm)).isSome := by
    intro wm _
    simp [Client.send]
  exact ⟨hh, sendMessage_per_wire exampleClient
    (fun _ => Exchange.transportFailure) exampleMessage hh⟩

theorem chunkRegistrationIDs_join (l : List String) :
    (chunkRegistrationIDs l).flatten = l := by
  induction l using chunkRegistrationIDs.induct with
  | case1 => simp [chunkRegistrationIDs]
  | case2 registrationID rest ih =>
      rw [chunkRegistrationIDs]
      simp only [List.flatten_cons, ih]
      exact List.take_append_drop _ _

theorem chunkRegistrationIDs_length_eq (l : List String) :
    (chunkRegistrationIDs l).length =
      (l.length + MaxRegistrationIDs - 1) / MaxRegistrationIDs := by
  induction l using chunkRegistrationIDs.induct with
  | case1 => simp [chunkRegistrationIDs, MaxRegistrationIDs]
  | case2 registrationID rest ih =>
      rw [chunkRegistrationIDs]
      simp only [List.length_cons, ih, List.length_drop]
      simp only [MaxRegistrationIDs]
      omega

theorem chunkRegistrationIDs_sizes (l : List String) :
    ∀ c ∈ chunkRegistrationIDs l, c.length ≤ MaxRegistrationIDs := by
  induction l using chunkRegistrationIDs.induct with
  | case1 => simp [chunkRegistrationIDs]
  | case2 registrationID rest ih =>
      intro c hc
      rw [chunkRegistrationIDs] at hc
      simp only [List.mem_cons] at hc
      rcases hc with hc | hc
      · subst hc
        simp [List.length_take]
      · exact ih c hc

/-- C8: for every message, `encode` produces `ceil(k / L)` wire messages
(`k` registration identifiers, batch limit `L = MaxRegistrationIDs`), each
carrying at most `L` identifiers and the same payload and options, and their
identifier lists concatenate, in order, to the original identifier list. -/
theorem encode_spec (message : Message) :
    message.encode.length
      = (message.RegistrationIDs.length + MaxRegistrationIDs - 1)
          / MaxRegistrationIDs ∧
    (message.encode.map Message.RegistrationIDs).flatten
      = message.RegistrationIDs ∧
    ∀ wm ∈ message.encode,
      wm.RegistrationIDs.length ≤ MaxRegistrationIDs ∧
      wm.Data = message.Data ∧ wm.CollapseKey = message.CollapseKey ∧
      wm.Priority = message.Priority ∧ wm.TimeToLive = message.TimeToLive ∧
      wm.DelayWhileIdle = message.DelayWhileIdle ∧
      wm.DryRun = message.DryRun := by
  refine ⟨?_, ?_, ?_⟩
  · simp [Message.encode, chunkRegistrationIDs_length_eq]
  · rw [Message.encode, List.map_map]
    have : (Message.RegistrationIDs ∘ fun ids =>
        { message with RegistrationIDs := ids }) = id := rfl
    rw [this, List.map_id]
    exact chunkRegistrationIDs_join _
  · intro wm hwm
    simp only [Message.encode, List.mem_map] at hwm
    obtain ⟨ids, hids, rfl⟩ := hwm
    exact ⟨chunkRegistrationIDs_sizes _ _ hids, rfl, rfl, rfl, rfl, rfl, rfl⟩

/-- C9 counterexample: `CreateClient` stores the gateway argument verbatim;
with the gateway not supplied (empty string) the constructed client does not
fall back to the production endpoint `Gateway`. -/
theorem createClient_no_gateway_default_cex :
    (CreateClient "APIKey" "").Gateway ≠ Gateway := by
  decide

/-- C9 amended: client construction accepts an API key and a gateway
endpoint URL and stores both verbatim — the gateway URL is never defaulted
(the production endpoint is only exposed as the constant `Gateway` for the
caller to pass) — and the HTTP transport defaults to the standard client. -/
theorem createClient_stores_config (apiKey : String) (gateway : String) :
    (CreateClient apiKey gateway).APIKey = apiKey ∧
    (CreateClient apiKey gateway).Gateway = gateway ∧
    (CreateClient apiKey gateway).HTTPClient = HTTPTransport.defaultClient ∧
    Gateway = "https://android.googleapis.com/gcm/send" :=
  ⟨rfl, rfl, rfl, rfl⟩

end GCM
